import Mathlib

/-! Verification of the XServer VPS renewal script (`renewal.py`) against its
specification.  The Python source is shallowly embedded: strings are lists of
characters, the mailbox is an explicit list of messages threaded through the
polling loop, wall-clock time is a natural number advanced by the poll
interval, and fallible network calls are oracles `Nat → Option _` giving the
outcome of each attempt.  All definitions are executable and are translated
directly from the source file `renewal.py`. -/

namespace Renewal

/-- The five terminal statuses recorded in `renewal_status`
(`Success | Failed | Unexpired | NeedVerify | Unknown`). -/
inductive Status where
  | Success
  | Failed
  | Unexpired
  | NeedVerify
  | Unknown
deriving DecidableEq

/- ## Model of Python regular-expression word boundaries and digit runs

`EmailCodeFetcher._extract_code` (renewal.py lines 198-205) uses
`re.search(r"\b(\d{5,6})\b", text)` and falls back to
`re.search(r"\b(\d{4,8})\b", text)`.  We model `re.search` for patterns of the
shape `\b\d{a,b}\b`: scan positions left to right, and at each position try the
repetition counts greedily (largest first), exactly as the backtracking engine
does.  Python's `re` on `str` patterns is Unicode-aware: `\w` covers the word
characters of any script (alphanumerics and underscore) and `\d` covers the
Unicode decimal digits.  The predicates below model these on the character
repertoire of this program's input domain — ASCII together with the Japanese
scripts and compatibility forms appearing in the mail this script reads:
hiragana, katakana (prolonged-sound and iteration marks included), CJK unified
ideographs, and the full-width and half-width forms.  Combining marks and
punctuation inside those blocks (e.g. the katakana middle dot) are not word
characters, in Python as here. -/

/-- Word characters as matched by Python's `\w` / asserted by `\b`, on the
modelled repertoire: ASCII alphanumerics and underscore; hiragana letters and
iteration marks; katakana letters, prolonged-sound and iteration marks; CJK
unified ideographs; full-width digits and Latin letters; half-width
katakana. -/
def isWordChar (c : Char) : Bool :=
  c.isAlphanum || c == '_' ||
  (0x3041 ≤ c.toNat && c.toNat ≤ 0x3096) ||
  (0x309D ≤ c.toNat && c.toNat ≤ 0x309F) ||
  (0x30A1 ≤ c.toNat && c.toNat ≤ 0x30FA) ||
  (0x30FC ≤ c.toNat && c.toNat ≤ 0x30FF) ||
  (0x4E00 ≤ c.toNat && c.toNat ≤ 0x9FFF) ||
  (0xFF10 ≤ c.toNat && c.toNat ≤ 0xFF19) ||
  (0xFF21 ≤ c.toNat && c.toNat ≤ 0xFF3A) ||
  (0xFF41 ≤ c.toNat && c.toNat ≤ 0xFF5A) ||
  (0xFF66 ≤ c.toNat && c.toNat ≤ 0xFF9F)

/-- Decimal digits as matched by Python's `\d` (Unicode category Nd), on the
modelled repertoire: ASCII digits and full-width digits `０`-`９`. -/
def isDigitChar (c : Char) : Bool :=
  c.isDigit || (0xFF10 ≤ c.toNat && c.toNat ≤ 0xFF19)

/-- Whether position `i` of `s` holds a word character (out of range: no). -/
def wordAt (s : List Char) (i : Nat) : Bool :=
  match s[i]? with
  | some c => isWordChar c
  | none => false

/-- The `\b` assertion at position `i`: word-character-ness changes between
positions `i - 1` and `i` (positions outside the string count as non-word). -/
def boundaryAt (s : List Char) (i : Nat) : Bool :=
  (if i = 0 then false else wordAt s (i - 1)) != wordAt s i

/-- `len` consecutive `\d` characters of `s` starting at position `i`. -/
def digitsAt (s : List Char) (i len : Nat) : Bool :=
  (List.range len).all fun j =>
    match s[i + j]? with
    | some c => isDigitChar c
    | none => false

/-- A match of `\b\d{len}\b` at position `i` of `s`. -/
def matchLen (s : List Char) (i len : Nat) : Bool :=
  digitsAt s i len && boundaryAt s i && boundaryAt s (i + len)

/-- The substring of `s` of length `len` starting at position `i`. -/
def seg (s : List Char) (i len : Nat) : List Char := (s.drop i).take len

/-- Try the repetition counts `lens` (greedy order) at position `i`. -/
def tryAt (s : List Char) (lens : List Nat) (i : Nat) : Option (List Char) :=
  match lens.find? (fun l => matchLen s i l) with
  | some l => some (seg s i l)
  | none => none

/-- Scan positions `i, i+1, ...` (at most `fuel` of them) for the first
position where one of the repetition counts matches. -/
def searchAux (s : List Char) (lens : List Nat) : Nat → Nat → Option (List Char)
  | _, 0 => none
  | i, fuel + 1 =>
    match tryAt s lens i with
    | some r => some r
    | none => searchAux s lens (i + 1) fuel

/-- `re.search` for the pattern `\b\d{a,b}\b`, with `lens` the repetition
counts in greedy (descending) order.  Positions `0 .. s.length` suffice. -/
def searchRun (s : List Char) (lens : List Nat) : Option (List Char) :=
  searchAux s lens 0 (s.length + 1)

/-- `EmailCodeFetcher._extract_code` (renewal.py lines 198-205): empty text
yields nothing; otherwise first `\b(\d{5,6})\b`, then `\b(\d{4,8})\b`. -/
def extract_code (text : List Char) : Option (List Char) :=
  if text.isEmpty then none
  else
    match searchRun text [6, 5] with
    | some r => some r
    | none => searchRun text [8, 7, 6, 5, 4]

example : extract_code ("code: 12345 ok".toList) = some ("12345".toList) := by decide
example : extract_code ("a12345b".toList) = none := by decide
example : extract_code (" 1234567 ".toList) = some ("1234567".toList) := by decide
example : extract_code ("x 123 y".toList) = none := by decide
example : extract_code ("9999 12345".toList) = some ("12345".toList) := by decide
example : extract_code ("コード48213".toList) = none := by decide
example : extract_code ("認証コード: 48213".toList) = some ("48213".toList) := by
  decide
example : extract_code ("１２３４５".toList) = some ("１２３４５".toList) := by
  decide
example : extract_code ("あ48213".toList) = none := by decide
example : extract_code ("48213ー".toList) = none := by decide
example : extract_code ("ド・48213".toList) = some ("48213".toList) := by decide

/- ## Mailbox model (`EmailCodeFetcher`, renewal.py lines 179-353)

A `MailMsg` is one retrieved message with its decoded `From` and `Subject`
headers, decoded body text, server id and `\Seen` flag.  The mailbox is a list
of messages in server order (oldest first, ids ascending), as `IMAP SEARCH`
returns them. -/

structure MailMsg where
  mid : Nat
  frm : List Char
  subj : List Char
  body : List Char
  seen : Bool
deriving DecidableEq

/-- The configured `MAIL_FROM_FILTER` / `MAIL_SUBJECT_FILTER` substrings
(empty list = not configured). -/
structure Filters where
  fromFilter : List Char
  subjectFilter : List Char
deriving DecidableEq

/-- Python `str.lower()` (ASCII fragment; non-ASCII characters unchanged). -/
def lower (s : List Char) : List Char := s.map Char.toLower

/-- Python's substring test `needle in hay`. -/
def containsSub : List Char → List Char → Bool
  | needle, [] => needle.isEmpty
  | needle, c :: rest => needle.isPrefixOf (c :: rest) || containsSub needle rest

/-- `EmailCodeFetcher._match_filters` (renewal.py lines 242-275): lowercase
substring containment against the decoded `From` and `Subject` headers; an
unconfigured filter imposes no constraint. -/
def matchFilters (fp : Filters) (m : MailMsg) : Bool :=
  if !fp.fromFilter.isEmpty && !(containsSub (lower fp.fromFilter) (lower m.frm)) then
    false
  else if !fp.subjectFilter.isEmpty && !(containsSub (lower fp.subjectFilter) (lower m.subj)) then
    false
  else
    true

/-- `EmailCodeFetcher._decode_email_payload` (renewal.py lines 207-240): the
combined search surface `"SUBJECT:\n{subject}\n\nFROM:\n{from}\n\nBODY:\n{body}"`. -/
def msgContent (m : MailMsg) : List Char :=
  "SUBJECT:\n".toList ++ m.subj ++ "\n\nFROM:\n".toList ++ m.frm
    ++ "\n\nBODY:\n".toList ++ m.body

/-- The server-side IMAP search criteria: `mail.search(None, "UNSEEN")`
(renewal.py line 301) — fixed, never containing any configured filter text. -/
def searchCriteria (_fp : Filters) : List (List Char) := ["UNSEEN".toList]

/-- The result of `mail.search(None, "UNSEEN")`: the unread messages, in
server order. -/
def unseenMsgs (mbox : List MailMsg) : List MailMsg :=
  mbox.filter fun m => !m.seen

/-- Python `ids[-n:]`: the last `n` elements (all of them when `n ≥ length`). -/
def lastN (n : Nat) (l : List MailMsg) : List MailMsg := l.drop (l.length - n)

/-- `mail.store(mid, "+FLAGS", "\\Seen")`: mark the message `mid` read. -/
def markSeen (mbox : List MailMsg) (mid : Nat) : List MailMsg :=
  mbox.map fun m => if m.mid = mid then { m with seen := true } else m

/-- The inner `for mid in ids_to_scan` loop of `fetch_latest_code`
(renewal.py lines 317-337): skip messages failing `_match_filters`; on the
first message whose content yields a code, stop with that message and code. -/
def scanMsgs (fp : Filters) : List MailMsg → Option (MailMsg × List Char)
  | [] => none
  | m :: rest =>
    if matchFilters fp m then
      match extract_code (msgContent m) with
      | some c => some (m, c)
      | none => scanMsgs fp rest
    else
      scanMsgs fp rest

/-- One poll iteration of `fetch_latest_code` (renewal.py lines 300-339):
search unread, scan the last `n` of them newest-first, and on success mark
(only) the winning message read.  Returns the winner (if any) and the
resulting mailbox. -/
def fetchPass (fp : Filters) (n : Nat) (mbox : List MailMsg) :
    Option (MailMsg × List Char) × List MailMsg :=
  match scanMsgs fp ((lastN n (unseenMsgs mbox)).reverse) with
  | some (m, c) => (some (m, c), markSeen mbox m.mid)
  | none => (none, mbox)

/-- The polling loop of `fetch_latest_code` (renewal.py lines 292-353).
`conn t` tells whether the IMAP session at time `t` succeeds (the
`except` branch of the loop fires when it does not); `arrive t` are the
messages newly delivered by time `t` (appended at the newest end); `budget`
is `timeout_sec`, `step` is `poll_interval`.  The loop runs while
`t < budget`; a connection failure or a codeless pass waits one interval and
retries; budget exhaustion returns `none` (no code) as a normal result. -/
def fetchLoop (fp : Filters) (n : Nat) (conn : Nat → Bool)
    (arrive : Nat → List MailMsg) (budget step : Nat) :
    List MailMsg → Nat → Nat → Option (List Char)
  | _, _, 0 => none
  | mbox, t, fuel + 1 =>
    if budget ≤ t then none
    else
      let cur := mbox ++ arrive t
      if conn t then
        match fetchPass fp n cur with
        | (some (_, c), _) => some c
        | (none, mbox2) => fetchLoop fp n conn arrive budget step mbox2 (t + step) fuel
      else
        fetchLoop fp n conn arrive budget step cur (t + step) fuel

/-- `fetch_latest_code` as invoked right after the dispatch-trigger click in
`login` (renewal.py line 599): polling starts at time `0` on the mailbox as it
stood at the click, with `scan_last_n = 12` (the default). -/
def fetchAfterTrigger (fp : Filters) (conn : Nat → Bool)
    (arrive : Nat → List MailMsg) (budget step : Nat) (mbox0 : List MailMsg)
    (fuel : Nat) : Option (List Char) :=
  fetchLoop fp 12 conn arrive budget step mbox0 0 fuel

/-- The caller's classification of the fetch outcome (renewal.py lines
603-607): no code ⇒ the run's status becomes `NeedVerify` and `login` returns;
a code ⇒ no terminal status is assigned here (the flow proceeds). -/
def verifyStatusOnFetch : Option (List Char) → Option Status
  | none => some Status.NeedVerify
  | some _ => none

/- ## Captcha solver model (`CaptchaSolver`, renewal.py lines 117-172) -/

/-- Python `str.strip()` (whitespace at both ends). -/
def stripWs (s : List Char) : List Char :=
  ((s.dropWhile Char.isWhitespace).reverse.dropWhile Char.isWhitespace).reverse

/-- Helper for `re.findall(r"\d+", ·)`: accumulate the current run (reversed). -/
def digitRunsAux : List Char → List Char → List (List Char)
  | [], acc => if acc.isEmpty then [] else [acc.reverse]
  | c :: cs, acc =>
    if c.isDigit then digitRunsAux cs (c :: acc)
    else if acc.isEmpty then digitRunsAux cs []
    else acc.reverse :: digitRunsAux cs []

/-- `re.findall(r"\d+", s)`: the maximal digit runs of `s`, in order. -/
def digitRuns (s : List Char) : List (List Char) := digitRunsAux s []

/-- `CaptchaSolver._validate_code` (renewal.py lines 123-132): non-empty,
length 4 to 6, all digits, not all-identical digits. -/
def validateCode (code : List Char) : Bool :=
  if code.isEmpty then false
  else if code.length < 4 || code.length > 6 then false
  else if !(code.all Char.isDigit) then false
  else if (match code with | [] => true | c :: rest => rest.all (· == c)) then false
  else true

/-- One attempt of `CaptchaSolver.solve` on a successfully returned response
body (renewal.py lines 152-162): strip, take the first digit run, truncate it
to its first 6 characters, accept it iff `_validate_code` holds. -/
def solveAttempt (body : List Char) : Option (List Char) :=
  match digitRuns (stripWs body) with
  | [] => none
  | r :: _ => if validateCode (r.take 6) then some (r.take 6) else none

/-- The retry loop of `CaptchaSolver.solve` (renewal.py lines 139-168):
`oracle i = none` models a failed HTTP request at attempt `i`, `some body` a
response body; a failed attempt sleeps 2 seconds (not modelled) and retries;
after the last attempt the solver returns `none`. -/
def solveLoop (oracle : Nat → Option (List Char)) : Nat → Nat → Option (List Char)
  | _, 0 => none
  | i, attempts + 1 =>
    match oracle i with
    | none => solveLoop oracle (i + 1) attempts
    | some body =>
      match solveAttempt body with
      | some c => some c
      | none => solveLoop oracle (i + 1) attempts

/-- `CaptchaSolver.solve`: `max_retries = 3` attempts (renewal.py line 139). -/
def solveApi (oracle : Nat → Option (List Char)) : Option (List Char) :=
  solveLoop oracle 0 3

/-- The diagnostic set by `submit_extend` when the solver yields no code
(renewal.py line 901). -/
def captchaFailMsg : List Char := "续期验证码识别失败".toList

/-- `submit_extend`'s handling of the solver result (renewal.py lines
898-903): no code ⇒ terminal status `Failed` with the captcha-recognition
diagnostic; a code ⇒ no terminal status here (the flow proceeds). -/
def solveFailureOutcome : Option (List Char) → Option (Status × List Char)
  | none => some (Status.Failed, captchaFailMsg)
  | some _ => none

/- ## Result-page classification (`submit_extend`, renewal.py lines 953-976) -/

/-- The failure/error keywords scanned first (renewal.py lines 955-960). -/
def failureKeywords : List (List Char) :=
  ["入力された認証コードが正しくありません".toList,
   "認証コードが正しくありません".toList,
   "エラー".toList,
   "間違".toList]

/-- The success keywords scanned second (renewal.py line 967). -/
def successKeywords : List (List Char) :=
  ["完了".toList, "継続".toList, "完成".toList, "更新しました".toList]

/-- `any(k in html for k in ks)`. -/
def hasKeyword (ks : List (List Char)) (html : List Char) : Bool :=
  ks.any fun k => containsSub k html

/-- The post-submission page classification (renewal.py lines 955-976): any
failure keyword ⇒ `Failed`; otherwise any success keyword ⇒ `Success`;
otherwise `Unknown`. -/
def classifyResultPage (html : List Char) : Status :=
  if hasKeyword failureKeywords html then Status.Failed
  else if hasKeyword successKeywords html then Status.Success
  else Status.Unknown

/- ## Eligibility gate (`run`, renewal.py lines 1051-1071) -/

/-- The run's mutable outcome fields (status, recorded expiry, diagnostic).
Calendar dates are day numbers (integers), so `expiry − 1 day` is `e - 1`. -/
structure RunRecord where
  status : Status
  oldExpiry : Option Int
  errMsg : Option (List Char)
deriving DecidableEq

/-- `can_extend_date = expiry_date - datetime.timedelta(days=1)`
(renewal.py line 1056). -/
def canExtendDate (expiry : Int) : Int := expiry - 1

/-- The eligibility check of `run` (renewal.py lines 1051-1069), executed
after login and expiry read: when an expiry was read and
`today_jst < can_extend_date`, the status becomes `Unexpired`, the diagnostic
is cleared, and the run stops here (`true`), its record — expiry included —
saved to the cache; otherwise the record is untouched and the run goes on. -/
def eligibilityGate (todayJst : Int) (rec : RunRecord) : RunRecord × Bool :=
  match rec.oldExpiry with
  | none => (rec, false)
  | some e =>
    if todayJst < canExtendDate e then
      ({ rec with status := Status.Unexpired, errMsg := none }, true)
    else
      (rec, false)

/- ## Lemmas about the regex-search model -/

lemma matchLen_lt_length {s : List Char} {i l : Nat} (h : matchLen s i l = true)
    (hl : 1 ≤ l) : i < s.length := by
  by_contra hge
  push_neg at hge
  have hd : digitsAt s i l = true := by
    unfold matchLen at h
    simp only [Bool.and_eq_true] at h
    exact h.1.1
  unfold digitsAt at hd
  rw [List.all_eq_true] at hd
  have h0 := hd 0 (List.mem_range.mpr hl)
  rw [List.getElem?_eq_none (by omega)] at h0
  simp at h0

lemma tryAt_eq_none_iff {s : List Char} {lens : List Nat} {i : Nat} :
    tryAt s lens i = none ↔ ∀ l ∈ lens, matchLen s i l = false := by
  unfold tryAt
  cases h : lens.find? (fun l => matchLen s i l) with
  | none =>
    rw [List.find?_eq_none] at h
    simpa using h
  | some l =>
    have hmem := List.mem_of_find?_eq_some h
    have hml := List.find?_some h
    simp only [reduceCtorEq, false_iff, not_forall]
    exact ⟨l, hmem, by simp [hml]⟩

lemma tryAt_eq_none_of_length_le {s : List Char} {lens : List Nat} {i : Nat}
    (hl : ∀ l ∈ lens, 1 ≤ l) (hge : s.length ≤ i) : tryAt s lens i = none := by
  rw [tryAt_eq_none_iff]
  intro l hmem
  by_contra hc
  rw [Bool.not_eq_false] at hc
  exact absurd (matchLen_lt_length hc (hl l hmem)) (by omega)

lemma searchAux_eq_none_iff (s : List Char) (lens : List Nat) :
    ∀ fuel i, (searchAux s lens i fuel = none ↔
      ∀ j, i ≤ j → j < i + fuel → tryAt s lens j = none) := by
  intro fuel
  induction fuel with
  | zero =>
    intro i
    simp only [searchAux, true_iff]
    omega
  | succ n ih =>
    intro i
    unfold searchAux
    cases h : tryAt s lens i with
    | some r =>
      simp only [reduceCtorEq, false_iff, not_forall]
      exact ⟨i, le_refl i, by omega, by simp [h]⟩
    | none =>
      rw [ih (i + 1)]
      constructor
      · intro hall j hij hlt
        rcases Nat.eq_or_lt_of_le hij with rfl | hlt2
        · exact h
        · exact hall j hlt2 (by omega)
      · intro hall j hij hlt
        exact hall j (by omega) (by omega)

lemma searchAux_first (s : List Char) (lens : List Nat) :
    ∀ fuel i i0 r, i ≤ i0 → i0 < i + fuel → tryAt s lens i0 = some r →
      (∀ j, i ≤ j → j < i0 → tryAt s lens j = none) →
      searchAux s lens i fuel = some r := by
  intro fuel
  induction fuel with
  | zero =>
    intro i i0 r h1 h2
    omega
  | succ n ih =>
    intro i i0 r h1 h2 h3 h4
    unfold searchAux
    cases h : tryAt s lens i with
    | some r2 =>
      rcases Nat.eq_or_lt_of_le h1 with rfl | hlt
      · rw [h] at h3
        exact h3
      · rw [h4 i (le_refl i) hlt] at h
        exact absurd h (by simp)
    | none =>
      have hne : i ≠ i0 := by
        intro heq
        rw [heq, h3] at h
        exact absurd h (by simp)
      exact ih (i + 1) i0 r (by omega) (by omega) h3
        (fun j hj hj2 => h4 j (by omega) hj2)

lemma searchRun_eq_none_iff {s : List Char} {lens : List Nat}
    (hl : ∀ l ∈ lens, 1 ≤ l) :
    searchRun s lens = none ↔ ∀ j, tryAt s lens j = none := by
  unfold searchRun
  rw [searchAux_eq_none_iff]
  constructor
  · intro hall j
    by_cases hj : j < s.length + 1
    · exact hall j (Nat.zero_le j) (by omega)
    · exact tryAt_eq_none_of_length_le hl (by omega)
  · intro hall j _ _
    exact hall j

lemma searchRun_eq_some_of {s : List Char} {lens : List Nat} {i0 : Nat}
    {r : List Char} (hlen : i0 < s.length + 1) (h1 : tryAt s lens i0 = some r)
    (h2 : ∀ j, j < i0 → tryAt s lens j = none) :
    searchRun s lens = some r :=
  searchAux_first s lens (s.length + 1) 0 i0 r (Nat.zero_le i0) (by omega) h1
    (fun j _ hj => h2 j hj)

/-- C4.  The claim as frozen is refuted by `C4_counterexample` below (a 5-digit
run adjacent to letters is not bounded by word boundaries, so it is not
returned); this theorem proves the claim amended to require the runs to be
bounded by word boundaries (adjacent to no letter, digit or underscore):
(1) extraction returns none exactly when no 4–8 digit run bounded by word
boundaries occurs; (2) when exactly one 5–6 digit run bounded by word
boundaries occurs (at position `i`, length `l`), extraction returns it;
(3) when no bounded 5–6 digit run occurs and the only bounded 4–8 digit run is
one of length 7, extraction returns it via the 4–8 fallback.  Extraction
returns at most one candidate by its `Option` result type. -/
theorem C4_theorem (s : List Char) :
    (extract_code s = none ↔
      ∀ i < s.length, ∀ l < 9,
        (l = 8 ∨ l = 7 ∨ l = 6 ∨ l = 5 ∨ l = 4) → matchLen s i l = false) ∧
    (∀ i l, (l = 6 ∨ l = 5) → matchLen s i l = true →
      (∀ j < s.length, ∀ k < 9, (k = 6 ∨ k = 5) →
        matchLen s j k = true → j = i ∧ k = l) →
      extract_code s = some (seg s i l)) ∧
    (∀ i, matchLen s i 7 = true →
      (∀ j < s.length, ∀ k < 9, (k = 6 ∨ k = 5) → matchLen s j k = false) →
      (∀ j < s.length, ∀ k < 9, (k = 8 ∨ k = 7 ∨ k = 6 ∨ k = 5 ∨ k = 4) →
        matchLen s j k = true → j = i ∧ k = 7) →
      extract_code s = some (seg s i 7)) := by
  have hpos48 : ∀ l ∈ ([8, 7, 6, 5, 4] : List Nat), 1 ≤ l := by decide
  have hpos56 : ∀ l ∈ ([6, 5] : List Nat), 1 ≤ l := by decide
  refine ⟨?_, ?_, ?_⟩
  · -- (1) none-characterisation
    constructor
    · intro hnone i hi l _ hl
      unfold extract_code at hnone
      by_cases hemp : s.isEmpty
      · rw [List.isEmpty_iff] at hemp
        subst hemp
        simp at hi
      · rw [if_neg hemp] at hnone
        cases h56 : searchRun s [6, 5] with
        | some r => rw [h56] at hnone; exact absurd hnone (by simp)
        | none =>
          rw [h56] at hnone
          have hall := (searchRun_eq_none_iff hpos48).mp hnone
          have := (tryAt_eq_none_iff).mp (hall i) l
          rcases hl with rfl | rfl | rfl | rfl | rfl <;> simp_all
    · intro hall
      have htry : ∀ j, tryAt s [8, 7, 6, 5, 4] j = none := by
        intro j
        rw [tryAt_eq_none_iff]
        intro l hmem
        by_cases hj : j < s.length
        · have hcases : l = 8 ∨ l = 7 ∨ l = 6 ∨ l = 5 ∨ l = 4 := by
            simpa using hmem
          have hl9 : l < 9 := by omega
          exact hall j hj l hl9 hcases
        · by_contra hc
          rw [Bool.not_eq_false] at hc
          exact absurd (matchLen_lt_length hc (hpos48 l hmem)) hj
      have htry56 : ∀ j, tryAt s [6, 5] j = none := by
        intro j
        rw [tryAt_eq_none_iff]
        intro l hmem
        have hdis : l = 6 ∨ l = 5 := by simpa using hmem
        have h48 := (tryAt_eq_none_iff).mp (htry j) l
        rcases hdis with rfl | rfl
        · exact h48 (by decide)
        · exact h48 (by decide)
      unfold extract_code
      by_cases hemp : s.isEmpty
      · rw [if_pos hemp]
      · rw [if_neg hemp]
        rw [(searchRun_eq_none_iff hpos56).mpr htry56]
        exact (searchRun_eq_none_iff hpos48).mpr htry
  · -- (2) unique bounded 5-6 digit run
    intro i l hl hm huniq
    have hlpos : 1 ≤ l := by rcases hl with rfl | rfl <;> omega
    have hi : i < s.length := matchLen_lt_length hm hlpos
    have hemp : ¬s.isEmpty := by
      rw [List.isEmpty_iff]
      intro h
      rw [h] at hi
      simp at hi
    have htryi : tryAt s [6, 5] i = some (seg s i l) := by
      unfold tryAt
      rcases hl with rfl | rfl
      · rw [List.find?_cons_of_pos _ (by simpa using hm)]
      · have h6 : matchLen s i 6 = false := by
          by_contra hc
          rw [Bool.not_eq_false] at hc
          have := huniq i hi 6 (by omega) (Or.inl rfl) hc
          omega
        rw [List.find?_cons_of_neg _ (by simp [h6]),
          List.find?_cons_of_pos _ (by simpa using hm)]
    have hbefore : ∀ j, j < i → tryAt s [6, 5] j = none := by
      intro j hj
      rw [tryAt_eq_none_iff]
      intro k hmem
      by_contra hc
      rw [Bool.not_eq_false] at hc
      have hk1 : 1 ≤ k := hpos56 k hmem
      have hjlen : j < s.length := matchLen_lt_length hc hk1
      have hk : k = 6 ∨ k = 5 := by simpa using hmem
      have := huniq j hjlen k (by rcases hk with rfl | rfl <;> omega) hk hc
      omega
    have hrun : searchRun s [6, 5] = some (seg s i l) :=
      searchRun_eq_some_of (by omega) htryi hbefore
    unfold extract_code
    rw [if_neg hemp, hrun]
  · -- (3) only a bounded 7-digit run, found via the 4-8 fallback
    intro i hm hno56 huniq
    have hi : i < s.length := matchLen_lt_length hm (by omega)
    have hemp : ¬s.isEmpty := by
      rw [List.isEmpty_iff]
      intro h
      rw [h] at hi
      simp at hi
    have h56 : searchRun s [6, 5] = none := by
      rw [searchRun_eq_none_iff hpos56]
      intro j
      rw [tryAt_eq_none_iff]
      intro k hmem
      have hk : k = 6 ∨ k = 5 := by simpa using hmem
      by_cases hj : j < s.length
      · exact hno56 j hj k (by rcases hk with rfl | rfl <;> omega) hk
      · by_contra hc
        rw [Bool.not_eq_false] at hc
        exact absurd (matchLen_lt_length hc (hpos56 k hmem)) hj
    have htryi : tryAt s [8, 7, 6, 5, 4] i = some (seg s i 7) := by
      unfold tryAt
      have h8 : matchLen s i 8 = false := by
        by_contra hc
        rw [Bool.not_eq_false] at hc
        have := huniq i hi 8 (by omega) (Or.inl rfl) hc
        omega
      rw [List.find?_cons_of_neg _ (by simp [h8]),
        List.find?_cons_of_pos _ (by simpa using hm)]
    have hbefore : ∀ j, j < i → tryAt s [8, 7, 6, 5, 4] j = none := by
      intro j hj
      rw [tryAt_eq_none_iff]
      intro k hmem
      by_contra hc
      rw [Bool.not_eq_false] at hc
      have hjlen : j < s.length := matchLen_lt_length hc (hpos48 k hmem)
      have hk : k = 8 ∨ k = 7 ∨ k = 6 ∨ k = 5 ∨ k = 4 := by
        simpa using hmem
      have hk9 : k < 9 := by rcases hk with rfl | rfl | rfl | rfl | rfl <;> omega
      have := huniq j hjlen k hk9 hk hc
      omega
    have hrun : searchRun s [8, 7, 6, 5, 4] = some (seg s i 7) :=
      searchRun_eq_some_of (by omega) htryi hbefore
    unfold extract_code
    rw [if_neg hemp, h56, hrun]

/-- C4 witness: on `"x 12345 y"` the unique bounded 5-digit run at position 2
is returned. -/
theorem C4_theorem_witness :
    extract_code ("x 12345 y".toList) = some (seg ("x 12345 y".toList) 2 5) :=
  (C4_theorem ("x 12345 y".toList)).2.1 2 5 (Or.inr rfl) (by decide)
    (by decide)

/-- C4 counterexample to the claim as frozen: `"a12345b"` contains exactly one
digit run, `"12345"`, of length 5 and adjacent to no other digit, yet
extraction returns none (the run is not bounded by word boundaries, because
the neighbouring letters are word characters). -/
theorem C4_counterexample :
    digitRuns ("a12345b".toList) = ["12345".toList] ∧
    extract_code ("a12345b".toList) = none := by decide

/- ## Result-page classification theorems -/

/-- C6.  The claim as frozen ("if any success keyword is present the terminal
status is Success") is refuted by `C6_counterexample` (failure keywords are
checked first); this theorem proves the claim amended accordingly: after
submission the page is classified by keyword scanning — any failure/error
keyword present ⇒ `Failed`; otherwise any success keyword present ⇒
`Success`; neither set matching ⇒ `Unknown`, and `Unknown` is never coerced
to `Failed` (the three statuses are characterised exactly). -/
theorem C6_theorem (html : List Char) :
    (classifyResultPage html = Status.Failed ↔
      hasKeyword failureKeywords html = true) ∧
    (classifyResultPage html = Status.Success ↔
      hasKeyword failureKeywords html = false ∧
      hasKeyword successKeywords html = true) ∧
    (classifyResultPage html = Status.Unknown ↔
      hasKeyword failureKeywords html = false ∧
      hasKeyword successKeywords html = false) := by
  unfold classifyResultPage
  by_cases hf : hasKeyword failureKeywords html <;>
    by_cases hs : hasKeyword successKeywords html <;>
      simp [hf, hs]

/-- C6 counterexample to the claim as frozen: the page `"エラー 完了"` contains
the success keyword `"完了"`, yet its classification is `Failed`, not
`Success`, because it also contains the failure keyword `"エラー"` and failure
keywords are checked first. -/
theorem C6_counterexample :
    hasKeyword successKeywords ("エラー 完了".toList) = true ∧
    classifyResultPage ("エラー 完了".toList) = Status.Failed := by decide

/-- C10: a post-submission page containing at least one failure keyword and at
least one success keyword is classified `Failed` (failure keywords are checked
before success keywords), and `Success` is reported only when no failure
keyword occurs anywhere in the page. -/
theorem C10_theorem (html : List Char) :
    (hasKeyword failureKeywords html = true →
      hasKeyword successKeywords html = true →
      classifyResultPage html = Status.Failed) ∧
    (classifyResultPage html = Status.Success →
      hasKeyword failureKeywords html = false) := by
  constructor
  · intro hf _
    unfold classifyResultPage
    rw [if_pos hf]
  · intro hs
    unfold classifyResultPage at hs
    by_cases hf : hasKeyword failureKeywords html
    · rw [if_pos hf] at hs
      cases hs
    · simpa using hf

/-- C10 witness: a concrete page containing both `"エラー"` and `"完了"` is
classified `Failed`. -/
theorem C10_theorem_witness :
    classifyResultPage ("エラー完了".toList) = Status.Failed :=
  (C10_theorem ("エラー完了".toList)).1 (by decide) (by decide)

/- ## Eligibility-gate theorem -/

/-- C7: for a run that has read an expiry date `e`, the eligibility check
stops the run (status `Unexpired`) exactly when `today < e - 1`, i.e. the run
proceeds to renewal exactly when `today ≥ e - 1`: it is stopped on the day
before the threshold `e - 1` and proceeds on the threshold day and every day
after.  When it stops, the resulting record carries status `Unexpired` and
still records the freshly read expiry date (the gate runs only after a
successful login and expiry read, which is what put `some e` into the
record). -/
theorem C7_theorem (today e : Int) (rec : RunRecord)
    (hexp : rec.oldExpiry = some e) :
    ((eligibilityGate today rec).2 = true ↔ today < e - 1) ∧
    (today < e - 1 →
      (eligibilityGate today rec).1.status = Status.Unexpired ∧
      (eligibilityGate today rec).1.oldExpiry = some e) ∧
    (e - 1 ≤ today → eligibilityGate today rec = (rec, false)) ∧
    ((eligibilityGate (e - 2) rec).2 = true) ∧
    ((eligibilityGate (e - 1) rec).2 = false) ∧
    (∀ d : Int, e - 1 ≤ d → (eligibilityGate d rec).2 = false) := by
  have hgate : ∀ d : Int, eligibilityGate d rec =
      if d < e - 1 then
        ({ rec with status := Status.Unexpired, errMsg := none }, true)
      else (rec, false) := by
    intro d
    unfold eligibilityGate canExtendDate
    rw [hexp]
  refine ⟨?_, ?_, ?_, ?_, ?_, ?_⟩
  · rw [hgate]
    by_cases h : today < e - 1 <;> simp [h]
  · intro h
    rw [hgate, if_pos h]
    exact ⟨rfl, hexp⟩
  · intro h
    rw [hgate, if_neg (by omega)]
  · rw [hgate, if_pos (by omega)]
  · rw [hgate, if_neg (by omega)]
  · intro d hd
    rw [hgate, if_neg (by omega)]

/-- C7 witness: with expiry day 100, the gate stops the run on day 98 with
status `Unexpired` while keeping the recorded expiry, and proceeds on day
99. -/
theorem C7_theorem_witness :
    ((eligibilityGate 98 ⟨Status.Unknown, some 100, none⟩).2 = true ↔
      (98 : Int) < 100 - 1) ∧
    ((98 : Int) < 100 - 1 →
      (eligibilityGate 98 ⟨Status.Unknown, some 100, none⟩).1.status =
        Status.Unexpired ∧
      (eligibilityGate 98 ⟨Status.Unknown, some 100, none⟩).1.oldExpiry =
        some 100) ∧
    ((100 : Int) - 1 ≤ 98 →
      eligibilityGate 98 ⟨Status.Unknown, some 100, none⟩ =
        (⟨Status.Unknown, some 100, none⟩, false)) ∧
    ((eligibilityGate (100 - 2) ⟨Status.Unknown, some 100, none⟩).2 = true) ∧
    ((eligibilityGate (100 - 1) ⟨Status.Unknown, some 100, none⟩).2 = false) ∧
    (∀ d : Int, 100 - 1 ≤ d →
      (eligibilityGate d ⟨Status.Unknown, some 100, none⟩).2 = false) :=
  C7_theorem 98 100 ⟨Status.Unknown, some 100, none⟩ rfl

/- ## Filter-policy theorems -/

/-- C9: for every configured filter input — non-Latin sender filters
included — the criteria sent to the mail server are the fixed `UNSEEN`
criterion, whose characters are all ASCII (never raw non-ASCII bytes); and
when no filter is configured the residual client-side predicate accepts every
message. -/
theorem C9_theorem (fp : Filters) (m : MailMsg) :
    searchCriteria fp = ["UNSEEN".toList] ∧
    (∀ crit ∈ searchCriteria fp, ∀ c ∈ crit, c.toNat < 128) ∧
    (fp.fromFilter = [] → fp.subjectFilter = [] → matchFilters fp m = true) := by
  refine ⟨rfl, ?_, ?_⟩
  · intro crit hcrit c hc
    unfold searchCriteria at hcrit
    simp only [List.mem_singleton] at hcrit
    subst hcrit
    fin_cases hc <;> decide
  · intro hfrom hsubj
    unfold matchFilters
    rw [hfrom, hsubj]
    simp

/-- C9 witness: with a non-Latin sender filter configured the criteria are
still the ASCII `UNSEEN`, and with no filter configured an arbitrary concrete
message passes the residual predicate. -/
theorem C9_theorem_witness :
    searchCriteria ⟨"認証コード".toList, []⟩ = ["UNSEEN".toList] ∧
    matchFilters ⟨[], []⟩ ⟨1, "a@b".toList, "hi".toList, "123".toList, false⟩ =
      true :=
  ⟨( C9_theorem ⟨"認証コード".toList, []⟩
      ⟨1, "a@b".toList, "hi".toList, "123".toList, false⟩).1,
   (C9_theorem ⟨[], []⟩
      ⟨1, "a@b".toList, "hi".toList, "123".toList, false⟩).2.2 rfl rfl⟩

/-- C3.  The claim as frozen ("a non-ASCII filter substring is never applied,
in particular not as a client-side predicate") is refuted by
`C3_counterexample`; this theorem proves the claim amended to match the code:
a configured filter substring — non-ASCII or not — never reaches the
server-side criteria (which are the fixed ASCII `UNSEEN`), but it **is**
applied client-side after retrieval: a message whose lowercased `From` header
does not contain the lowercased sender filter is rejected, and likewise for
the subject filter, while messages containing both configured substrings are
accepted. -/
theorem C3_theorem (fp : Filters) (m : MailMsg) :
    searchCriteria fp = ["UNSEEN".toList] ∧
    (fp.fromFilter ≠ [] →
      containsSub (lower fp.fromFilter) (lower m.frm) = false →
      matchFilters fp m = false) ∧
    (fp.subjectFilter ≠ [] →
      containsSub (lower fp.subjectFilter) (lower m.subj) = false →
      matchFilters fp m = false) ∧
    (containsSub (lower fp.fromFilter) (lower m.frm) = true →
      containsSub (lower fp.subjectFilter) (lower m.subj) = true →
      matchFilters fp m = true) := by
  refine ⟨rfl, ?_, ?_, ?_⟩
  · intro hne hsub
    unfold matchFilters
    rw [if_pos]
    simp only [Bool.and_eq_true, Bool.not_eq_true']
    exact ⟨by simpa using hne, hsub⟩
  · intro hne hsub
    unfold matchFilters
    by_cases hfrom : !fp.fromFilter.isEmpty &&
        !(containsSub (lower fp.fromFilter) (lower m.frm))
    · rw [if_pos hfrom]
    · rw [if_neg hfrom, if_pos]
      simp only [Bool.and_eq_true, Bool.not_eq_true']
      exact ⟨by simpa using hne, hsub⟩
  · intro hfrom hsubj
    unfold matchFilters
    rw [if_neg (by simp [hfrom]), if_neg (by simp [hsubj])]

/-- C3 witness: the non-ASCII sender filter `"認証"` rejects a message from
`"noreply@example.com"` client-side — it is applied, and does affect which
messages match. -/
theorem C3_theorem_witness :
    matchFilters ⟨"認証".toList, []⟩
      ⟨1, "noreply@example.com".toList, "hello".toList, "12345".toList, false⟩ =
      false :=
  ( C3_theorem ⟨"認証".toList, []⟩
    ⟨1, "noreply@example.com".toList, "hello".toList, "12345".toList, false⟩).2.1
    (by decide) (by decide)

/-- C3 counterexample to the claim as frozen: the configured non-ASCII sender
filter `"認証"` does affect which messages are matched — the same message is
rejected with the filter configured and accepted with no filter configured. -/
theorem C3_counterexample :
    matchFilters ⟨"認証".toList, []⟩
      ⟨1, "noreply@example.com".toList, "hello".toList, "12345".toList, false⟩ =
      false ∧
    matchFilters ⟨[], []⟩
      ⟨1, "noreply@example.com".toList, "hello".toList, "12345".toList, false⟩ =
      true := by decide

/- ## Single-pass scan invariants (C5) -/

lemma scanMsgs_eq_some {fp : Filters} :
    ∀ {l : List MailMsg} {m : MailMsg} {c : List Char},
      scanMsgs fp l = some (m, c) →
      matchFilters fp m = true ∧ extract_code (msgContent m) = some c ∧
      ∃ pre post, l = pre ++ m :: post ∧
        ∀ x ∈ pre,
          matchFilters fp x = false ∨ extract_code (msgContent x) = none := by
  intro l
  induction l with
  | nil =>
    intro m c h
    cases h
  | cons m0 rest ih =>
    intro m c h
    unfold scanMsgs at h
    by_cases hm : matchFilters fp m0 = true
    · rw [if_pos hm] at h
      cases he : extract_code (msgContent m0) with
      | some c0 =>
        rw [he] at h
        injection h with h
        injection h with h1 h2
        subst h1
        subst h2
        exact ⟨hm, he, [], rest, rfl, by simp⟩
      | none =>
        rw [he] at h
        obtain ⟨h1, h2, pre, post, h3, h4⟩ := ih h
        refine ⟨h1, h2, m0 :: pre, post, by rw [h3]; rfl, ?_⟩
        intro x hx
        rcases List.mem_cons.mp hx with rfl | hx2
        · exact Or.inr he
        · exact h4 x hx2
    · rw [if_neg hm] at h
      obtain ⟨h1, h2, pre, post, h3, h4⟩ := ih h
      refine ⟨h1, h2, m0 :: pre, post, by rw [h3]; rfl, ?_⟩
      intro x hx
      rcases List.mem_cons.mp hx with rfl | hx2
      · exact Or.inl (by simpa using hm)
      · exact h4 x hx2

lemma seen_update_self {x : MailMsg} (h : x.seen = true) :
    { x with seen := true } = x := by
  cases x
  simp_all

/-- C5: within one poll pass of `fetch_latest_code` — which scans the last `n`
unread messages newest-first — (1) if no code is found the mailbox is
untouched (no message is marked read before extraction succeeds); (2) if a
code is returned, the winning message passed the residual filter, the code was
extracted from its content, the only mailbox mutation is marking that one
winner read (so a message is marked read at most once, and only after its code
is accepted), every message scanned before the winner in newest-first order
either failed the filter (skipped without being marked) or yielded no code,
and every other message survives untouched; (3) marking is monotone: an
already-read message is never unmarked, so repeated polls within one fetch
call never mark a message read twice (a marked message leaves the unread
search result). -/
theorem C5_theorem (fp : Filters) (n : Nat) (mbox : List MailMsg) :
    ((fetchPass fp n mbox).1 = none → (fetchPass fp n mbox).2 = mbox) ∧
    (∀ m c, (fetchPass fp n mbox).1 = some (m, c) →
      matchFilters fp m = true ∧
      extract_code (msgContent m) = some c ∧
      (fetchPass fp n mbox).2 = markSeen mbox m.mid ∧
      (∃ pre post, (lastN n (unseenMsgs mbox)).reverse = pre ++ m :: post ∧
        ∀ x ∈ pre,
          matchFilters fp x = false ∨ extract_code (msgContent x) = none) ∧
      (∀ x ∈ mbox, x.mid ≠ m.mid → x ∈ (fetchPass fp n mbox).2)) ∧
    (∀ mid, ∀ x ∈ mbox, x.seen = true → x ∈ markSeen mbox mid) := by
  refine ⟨?_, ?_, ?_⟩
  · intro hnone
    unfold fetchPass at hnone ⊢
    cases h : scanMsgs fp ((lastN n (unseenMsgs mbox)).reverse) with
    | none => rfl
    | some p =>
      rw [h] at hnone
      obtain ⟨m0, c0⟩ := p
      simp at hnone
  · intro m c hsome
    unfold fetchPass at hsome ⊢
    cases h : scanMsgs fp ((lastN n (unseenMsgs mbox)).reverse) with
    | none =>
      rw [h] at hsome
      simp at hsome
    | some p =>
      obtain ⟨m0, c0⟩ := p
      rw [h] at hsome
      simp only [Option.some.injEq, Prod.mk.injEq] at hsome
      obtain ⟨rfl, rfl⟩ := hsome
      obtain ⟨h1, h2, pre, post, h3, h4⟩ := scanMsgs_eq_some h
      refine ⟨h1, h2, rfl, ⟨pre, post, h3, h4⟩, ?_⟩
      intro x hx hne
      show x ∈ markSeen mbox m0.mid
      have hfix : (if x.mid = m0.mid then { x with seen := true } else x) = x :=
        if_neg hne
      unfold markSeen
      rw [← hfix]
      exact List.mem_map_of_mem _ hx
  · intro mid x hx hseen
    have hfix : (if x.mid = mid then { x with seen := true } else x) = x := by
      by_cases hm : x.mid = mid
      · rw [if_pos hm]
        exact seen_update_self hseen
      · exact if_neg hm
    unfold markSeen
    rw [← hfix]
    exact List.mem_map_of_mem _ hx

/-- C5 witness: in a mailbox holding an older and a newer unread matching
message, the pass returns the newer message's code, marks only that message
read, and leaves the older one untouched. -/
theorem C5_theorem_witness :
    matchFilters ⟨[], []⟩
      ⟨2, "s@x".toList, "c".toList, "code 12345".toList, false⟩ = true ∧
    extract_code (msgContent
      ⟨2, "s@x".toList, "c".toList, "code 12345".toList, false⟩) =
      some ("12345".toList) ∧
    (fetchPass ⟨[], []⟩ 12
      [⟨1, "s@x".toList, "c".toList, "code 99999".toList, false⟩,
       ⟨2, "s@x".toList, "c".toList, "code 12345".toList, false⟩]).2 =
      markSeen
        [⟨1, "s@x".toList, "c".toList, "code 99999".toList, false⟩,
         ⟨2, "s@x".toList, "c".toList, "code 12345".toList, false⟩] 2 ∧
    (∃ pre post,
      (lastN 12 (unseenMsgs
        [⟨1, "s@x".toList, "c".toList, "code 99999".toList, false⟩,
         ⟨2, "s@x".toList, "c".toList, "code 12345".toList, false⟩])).reverse =
        pre ++ ⟨2, "s@x".toList, "c".toList, "code 12345".toList, false⟩ :: post ∧
      ∀ x ∈ pre,
        matchFilters ⟨[], []⟩ x = false ∨ extract_code (msgContent x) = none) ∧
    (∀ x ∈ [⟨1, "s@x".toList, "c".toList, "code 99999".toList, false⟩,
            (⟨2, "s@x".toList, "c".toList, "code 12345".toList, false⟩ : MailMsg)],
      x.mid ≠ 2 →
      x ∈ (fetchPass ⟨[], []⟩ 12
        [⟨1, "s@x".toList, "c".toList, "code 99999".toList, false⟩,
         ⟨2, "s@x".toList, "c".toList, "code 12345".toList, false⟩]).2) :=
  (C5_theorem ⟨[], []⟩ 12
    [⟨1, "s@x".toList, "c".toList, "code 99999".toList, false⟩,
     ⟨2, "s@x".toList, "c".toList, "code 12345".toList, false⟩]).2.1
    ⟨2, "s@x".toList, "c".toList, "code 12345".toList, false⟩
    ("12345".toList) (by decide)

/- ## Captcha-solver theorems (C2) -/

/-- Whether attempt result `r` fails: the HTTP call failed, or no digit run
was found, or the truncated candidate failed `_validate_code`. -/
def attemptFails (r : Option (List Char)) : Bool :=
  match r with
  | none => true
  | some body => (solveAttempt body).isNone

lemma solveAttempt_valid {body c : List Char}
    (h : solveAttempt body = some c) : validateCode c = true := by
  unfold solveAttempt at h
  split at h
  · cases h
  · split at h
    · injection h with h
      subst h
      assumption
    · cases h

lemma solveLoop_step {o : Nat → Option (List Char)} {i k : Nat} {body : List Char}
    (ho : o i = some body) :
    solveLoop o i (k + 1) =
      match solveAttempt body with
      | some c => some c
      | none => solveLoop o (i + 1) k := by
  simp only [solveLoop, ho]

lemma solveLoop_skip {o : Nat → Option (List Char)} {i k : Nat}
    (ho : o i = none) :
    solveLoop o i (k + 1) = solveLoop o (i + 1) k := by
  simp only [solveLoop, ho]

lemma solveLoop_congr {o o' : Nat → Option (List Char)} :
    ∀ k i, (∀ j, i ≤ j → j < i + k → o j = o' j) →
      solveLoop o i k = solveLoop o' i k := by
  intro k
  induction k with
  | zero => intro i _; rfl
  | succ n ih =>
    intro i hag
    have hrec := ih (i + 1) fun j h1 h2 => hag j (by omega) (by omega)
    cases ho : o i with
    | none =>
      rw [solveLoop_skip ho, solveLoop_skip (by rw [← hag i (le_refl i) (by omega)]; exact ho)]
      exact hrec
    | some body =>
      rw [solveLoop_step ho,
        solveLoop_step (by rw [← hag i (le_refl i) (by omega)]; exact ho)]
      cases solveAttempt body with
      | none => exact hrec
      | some c => rfl

lemma solveLoop_none {o : Nat → Option (List Char)} :
    ∀ k i, (∀ j, i ≤ j → j < i + k → attemptFails (o j) = true) →
      solveLoop o i k = none := by
  intro k
  induction k with
  | zero => intro i _; rfl
  | succ n ih =>
    intro i hfail
    have hrec := ih (i + 1) fun j h1 h2 => hfail j (by omega) (by omega)
    have hi := hfail i (le_refl i) (by omega)
    cases ho : o i with
    | none => rw [solveLoop_skip ho]; exact hrec
    | some body =>
      rw [ho] at hi
      unfold attemptFails at hi
      rw [Option.isNone_iff_eq_none] at hi
      rw [solveLoop_step ho, hi]
      exact hrec

lemma solveLoop_valid {o : Nat → Option (List Char)} :
    ∀ k i c, solveLoop o i k = some c → validateCode c = true := by
  intro k
  induction k with
  | zero =>
    intro i c h
    cases h
  | succ n ih =>
    intro i c h
    cases ho : o i with
    | none =>
      rw [solveLoop_skip ho] at h
      exact ih (i + 1) c h
    | some body =>
      rw [solveLoop_step ho] at h
      cases ha : solveAttempt body with
      | none =>
        rw [ha] at h
        exact ih (i + 1) c h
      | some c0 =>
        rw [ha] at h
        injection h with h
        subst h
        exact solveAttempt_valid ha

/-- C2.  The claim as frozen is refuted by `C2_counterexample` (the validator
accepts only lengths 4–6, after truncating the response's first digit run to
its first 6 digits — not the §3 range 4–8); this theorem proves the claim
amended accordingly: the captcha-service call is retried up to 3 times (only
attempts 0, 1, 2 are ever consulted), each response's first digit run is
truncated to at most 6 digits and validated as a non-empty numeric string of
length 4–6 that is not all-identical digits before being accepted; every
accepted code passes this validation, and if all 3 attempts fail — e.g. the
service returns `"111111"` every time — the solver returns no code and
`submit_extend` ends the run with terminal status `Failed` and the
captcha-recognition-failed diagnostic. -/
theorem C2_theorem (o o' : Nat → Option (List Char)) :
    ((∀ i, i < 3 → o i = o' i) → solveApi o = solveApi o') ∧
    ((∀ i, i < 3 → attemptFails (o i) = true) → solveApi o = none) ∧
    (∀ c, solveApi o = some c → validateCode c = true) ∧
    (solveApi o = none →
      solveFailureOutcome (solveApi o) = some (Status.Failed, captchaFailMsg)) := by
  refine ⟨?_, ?_, ?_, ?_⟩
  · intro hag
    exact solveLoop_congr 3 0 fun j h1 h2 => hag j (by omega)
  · intro hfail
    exact solveLoop_none 3 0 fun j h1 h2 => hfail j (by omega)
  · intro c h
    exact solveLoop_valid 3 0 c h
  · intro h
    rw [h]
    rfl

/-- C2 witness: a service returning `"111111"` on every attempt fails
validation three times; the solver returns no code and the submit step ends
with `Failed` and the captcha diagnostic. -/
theorem C2_theorem_witness :
    solveApi (fun _ => some ("111111".toList)) = none ∧
    solveFailureOutcome (solveApi (fun _ => some ("111111".toList))) =
      some (Status.Failed, captchaFailMsg) := by
  have h := C2_theorem (fun _ => some ("111111".toList))
    (fun _ => some ("111111".toList))
  have hnone := h.2.1 (by decide)
  exact ⟨hnone, h.2.2.2 hnone⟩

/-- C2 counterexample to the claim as frozen: `"1234567"` is a numeric string
of length 7 — within the §3 range 4–8 and not all-identical — yet
`_validate_code` rejects it; and a service response `"12345678"` is accepted
as the truncated `"123456"`, not validated as the returned 8-digit code. -/
theorem C2_counterexample :
    validateCode ("1234567".toList) = false ∧
    ("1234567".toList).all Char.isDigit = true ∧
    ("1234567".toList).length = 7 ∧
    solveApi (fun _ => some ("12345678".toList)) = some ("123456".toList) := by
  decide

/- ## Polling-loop theorems (C8, C1) -/

lemma fetchLoop_timeout {fp : Filters} {n : Nat} {conn : Nat → Bool}
    {arrive : Nat → List MailMsg} {budget step : Nat} {mbox : List MailMsg}
    {t fuel : Nat} (hle : budget ≤ t) :
    fetchLoop fp n conn arrive budget step mbox t (fuel + 1) = none := by
  simp only [fetchLoop]
  rw [if_pos hle]

lemma fetchLoop_connFail {fp : Filters} {n : Nat} {conn : Nat → Bool}
    {arrive : Nat → List MailMsg} {budget step : Nat} {mbox : List MailMsg}
    {t fuel : Nat} (hlt : t < budget) (hc : conn t = false) :
    fetchLoop fp n conn arrive budget step mbox t (fuel + 1) =
      fetchLoop fp n conn arrive budget step (mbox ++ arrive t) (t + step) fuel := by
  simp only [fetchLoop, hc]
  rw [if_neg (by omega)]
  simp

lemma fetchLoop_hit {fp : Filters} {n : Nat} {conn : Nat → Bool}
    {arrive : Nat → List MailMsg} {budget step : Nat}
    {mbox mbox2 : List MailMsg} {t fuel : Nat} {m : MailMsg} {c : List Char}
    (hlt : t < budget) (hc : conn t = true)
    (hp : fetchPass fp n (mbox ++ arrive t) = (some (m, c), mbox2)) :
    fetchLoop fp n conn arrive budget step mbox t (fuel + 1) = some c := by
  simp only [fetchLoop, hc]
  rw [if_neg (by omega), hp]
  simp

/-- C8: on every mailbox connection/authentication/protocol failure during a
fetch (a poll whose session does not come up), the loop — far from aborting —
simply continues one poll interval later on the mailbox as then delivered; and
once the time budget is exhausted the fetch returns no-code (`none`) as a
normal result rather than raising, which the caller classifies as terminal
status `NeedVerify` (and a returned code is never so classified). -/
theorem C8_theorem (fp : Filters) (n : Nat) (conn : Nat → Bool)
    (arrive : Nat → List MailMsg) (budget step : Nat) (mbox : List MailMsg)
    (t fuel : Nat) :
    (t < budget → conn t = false →
      fetchLoop fp n conn arrive budget step mbox t (fuel + 1) =
        fetchLoop fp n conn arrive budget step (mbox ++ arrive t) (t + step) fuel) ∧
    (budget ≤ t →
      fetchLoop fp n conn arrive budget step mbox t (fuel + 1) = none) ∧
    verifyStatusOnFetch none = some Status.NeedVerify ∧
    (∀ c, verifyStatusOnFetch (some c) = none) :=
  ⟨fun hlt hc => fetchLoop_connFail hlt hc,
   fun hle => fetchLoop_timeout hle,
   rfl,
   fun _ => rfl⟩

/-- C8 witness: a concrete always-failing connection makes poll 0 retry at
time `step = 5` without aborting; at `t = budget` the fetch returns no code,
and the caller turns that into `NeedVerify`. -/
theorem C8_theorem_witness :
    (fetchLoop ⟨[], []⟩ 12 (fun _ => false) (fun _ => []) 10 5 [] 0 (1 + 1) =
      fetchLoop ⟨[], []⟩ 12 (fun _ => false) (fun _ => []) 10 5 ([] ++ []) (0 + 5) 1) ∧
    (fetchLoop ⟨[], []⟩ 12 (fun _ => false) (fun _ => []) 10 5 [] 10 (0 + 1) = none) ∧
    verifyStatusOnFetch none = some Status.NeedVerify :=
  ⟨(C8_theorem ⟨[], []⟩ 12 (fun _ => false) (fun _ => []) 10 5 [] 0 1).1
      (by decide) rfl,
   (C8_theorem ⟨[], []⟩ 12 (fun _ => false) (fun _ => []) 10 5 [] 10 0).2.1
      (by decide),
   (C8_theorem ⟨[], []⟩ 12 (fun _ => false) (fun _ => []) 10 5 [] 0 1).2.2.1⟩

/-- C1.  The claim as frozen is refuted by `C1_counterexample`: the code
performs **no** sweep of unread messages before (or after) clicking the
dispatch trigger — `login` clicks the send button and immediately starts
`fetch_latest_code` on the mailbox as it stands — so with one pre-existing
unread matching message and the fresh message delivered only later, the fetch
returns the pre-existing (stale) code.  This theorem proves the claim amended
accordingly: when at the first successful poll after the trigger the mailbox
holds exactly one unread message, which matches the filters and yields a code,
the fetch returns that message's code — the pre-existing one included, since
nothing was swept. -/
theorem C1_theorem (fp : Filters) (m : MailMsg) (code : List Char)
    (conn : Nat → Bool) (arrive : Nat → List MailMsg) (budget step fuel : Nat)
    (hconn : conn 0 = true) (hb : 0 < budget) (harr : arrive 0 = [])
    (hseen : m.seen = false) (hmatch : matchFilters fp m = true)
    (hex : extract_code (msgContent m) = some code) :
    fetchAfterTrigger fp conn arrive budget step [m] (fuel + 1) = some code := by
  have hscan : scanMsgs fp ((lastN 12 (unseenMsgs [m])).reverse) =
      some (m, code) := by
    have h1 : unseenMsgs [m] = [m] := by simp [unseenMsgs, hseen]
    rw [h1]
    have h2 : lastN 12 [m] = [m] := by simp [lastN]
    rw [h2]
    simp [scanMsgs, hmatch, hex]
  have hpass : fetchPass fp 12 ([m] ++ arrive 0) = (some (m, code), markSeen [m] m.mid) := by
    rw [harr, List.append_nil]
    unfold fetchPass
    rw [hscan]
  unfold fetchAfterTrigger
  exact fetchLoop_hit hb hconn hpass

/-- C1 witness: the amended behaviour at a concrete stale mailbox — a single
pre-existing unread matching message with code `54321` is returned by the
fetch that follows the trigger. -/
theorem C1_theorem_witness :
    fetchAfterTrigger ⟨[], []⟩ (fun _ => true)
      (fun t => if t = 5 then
        [⟨2, "s@x".toList, "auth".toList, "code 67890".toList, false⟩] else [])
      120 5
      [⟨1, "s@x".toList, "auth".toList, "code 54321".toList, false⟩]
      (29 + 1) = some ("54321".toList) :=
  C1_theorem ⟨[], []⟩
    ⟨1, "s@x".toList, "auth".toList, "code 54321".toList, false⟩
    ("54321".toList)
    (fun _ => true)
    (fun t => if t = 5 then
      [⟨2, "s@x".toList, "auth".toList, "code 67890".toList, false⟩] else [])
    120 5 29 rfl (by decide) rfl rfl (by decide) (by decide)

/-- C1 counterexample to the claim as frozen: one matching unread message
(code `54321`) exists before the trigger and one (code `67890`) is delivered
after it (at the second poll); because nothing is swept, the fetch returns the
pre-existing code `54321`, not the post-trigger code `67890` that the claim
requires. -/
theorem C1_counterexample :
    fetchAfterTrigger ⟨[], []⟩ (fun _ => true)
      (fun t => if t = 5 then
        [⟨2, "s@x".toList, "auth".toList, "code 67890".toList, false⟩] else [])
      120 5
      [⟨1, "s@x".toList, "auth".toList, "code 54321".toList, false⟩]
      30 = some ("54321".toList) ∧
    ("54321".toList) ≠ ("67890".toList) := by decide

end Renewal
